import Mathlib

/-!
Verification development for the stitching engine of `veo3-gen-video-pro`
(`src/services/videoProcessor.ts`, types in `types.ts`).

Times, durations and volumes are modelled as exact rationals (`ℚ`); the
engine's event-driven control flow (`stitchVideos`) is modelled as the list
of observable events one invocation emits, parametrized by the number of
render ticks each phase runs (which depends on wall-clock timing in the
real program).
-/

namespace VeoStitch

/-! ## Definitions -/

/-- `types.ts`: `TransitionType`. -/
inductive TransitionType where
  | none
  | fade
  | wipe_left
  | wipe_right
  | slide_left
  | slide_right
deriving DecidableEq, Repr

/-- `types.ts`: the `status` field of `Scene`. -/
inductive SceneStatus where
  | pending
  | generating
  | completed
  | error
deriving DecidableEq, Repr

/-- `types.ts`: the `transition` field of `Scene`
("Duration of the transition INTO this scene (or from previous)"). -/
structure Transition where
  type : TransitionType
  duration : ℚ
deriving DecidableEq, Repr

/-- `types.ts`: `Scene` (the fields the stitching engine reads). -/
structure Scene where
  scene_number : ℕ
  status : SceneStatus
  videoUrl : Option String
  trimStart : Option ℚ
  trimEnd : Option ℚ
  overlayText : Option String
  transition : Option Transition
deriving DecidableEq, Repr

instance : Inhabited Scene :=
  ⟨{ scene_number := 0, status := SceneStatus.pending, videoUrl := Option.none,
     trimStart := Option.none, trimEnd := Option.none, overlayText := Option.none,
     transition := Option.none }⟩

/-- `types.ts`: `BackgroundMusic` (the fields the engine reads). -/
structure BackgroundMusic where
  url : String
  name : String
  volume : ℚ
deriving DecidableEq, Repr

/-- `types.ts`: `ExportResolution`. -/
inductive ExportResolution where
  | r720p
  | r1080p
deriving DecidableEq, Repr

/-- `types.ts`: `ExportFormat`. -/
inductive ExportFormat where
  | mp4
  | mov
deriving DecidableEq, Repr

/-- `types.ts`: `AspectRatio`. -/
inductive AspectRatio where
  | r16x9
  | r9x16
deriving DecidableEq, Repr

/-- `videoProcessor.ts` line 75: the filter applied to the input scene list
(`s.status === 'completed' && s.videoUrl`; a JS string is truthy iff
non-empty). -/
def isValidScene (s : Scene) : Bool :=
  decide (s.status = SceneStatus.completed) &&
    (match s.videoUrl with
     | some u => decide (u ≠ "")
     | Option.none => false)

/-- `videoProcessor.ts` line 75: `validScenes`. -/
def validScenes (scenes : List Scene) : List Scene :=
  scenes.filter isValidScene

/-- `videoProcessor.ts` lines 82-90: output surface dimensions from
resolution tier and aspect ratio. -/
def canvasDims (res : ExportResolution) (ar : AspectRatio) : ℕ × ℕ :=
  match ar with
  | AspectRatio.r16x9 =>
    (if res = ExportResolution.r1080p then 1920 else 1280,
     if res = ExportResolution.r1080p then 1080 else 720)
  | AspectRatio.r9x16 =>
    (if res = ExportResolution.r1080p then 1080 else 720,
     if res = ExportResolution.r1080p then 1920 else 1280)

/-- `videoProcessor.ts` line 204: `transition?.type || 'none'`. -/
def transitionTypeOf (tr : Option Transition) : TransitionType :=
  match tr with
  | some t => t.type
  | Option.none => TransitionType.none

/-- `videoProcessor.ts` line 205:
`(transitionType !== 'none' && transition?.duration) ? transition.duration : 0`
(a JS number is truthy iff non-zero). -/
def transitionDurationOf (tr : Option Transition) : ℚ :=
  match tr with
  | some t => if t.type ≠ TransitionType.none ∧ t.duration ≠ 0 then t.duration else 0
  | Option.none => 0

/-- `videoProcessor.ts` line 208: `currentScene.trimStart || 0`. -/
def soloStart (s : Scene) : ℚ := (s.trimStart).getD 0

/-- `videoProcessor.ts` line 209: `currentScene.trimEnd || 0`. -/
def endTrimOf (s : Scene) : ℚ := (s.trimEnd).getD 0

/-- `videoProcessor.ts` line 211: `Math.min(duration, duration - endTrim)`,
where `duration` is the clip's native media duration. -/
def clipEnd (s : Scene) (dur : ℚ) : ℚ := min dur (dur - endTrimOf s)

/-- `videoProcessor.ts` lines 199-203: the transition configuration consulted
while scene `i` of the timeline plays is `validScenes[i+1].transition`
(`nextScene?.transition`); for the last scene there is no next scene. -/
def outgoingTransition (tl : List Scene) (i : ℕ) : Option Transition :=
  match tl.get? (i + 1) with
  | some next => next.transition
  | Option.none => Option.none

/-- `videoProcessor.ts` line 221:
`hasNext ? Math.max(start, end - transitionDuration) : end`, the end of the
SOLO_PLAY phase of timeline clip `i` whose native duration is `dur`. -/
def soloEndTime (tl : List Scene) (i : ℕ) (s : Scene) (dur : ℚ) : ℚ :=
  if i + 1 < tl.length then
    max (soloStart s) (clipEnd s dur - transitionDurationOf (outgoingTransition tl i))
  else
    clipEnd s dur

/-- A completed one-scene timeline used to instantiate the theorems. -/
def exScene : Scene :=
  { scene_number := 1
    status := SceneStatus.completed
    videoUrl := some "blob:clip1"
    trimStart := some 1
    trimEnd := some 2
    overlayText := Option.none
    transition := Option.none }

/-- `videoProcessor.ts` lines 245 / 318: `Math.max(width / vW, height / vH)`. -/
def coverScale (outW outH srcW srcH : ℚ) : ℚ :=
  max (outW / srcW) (outH / srcH)

/-- `videoProcessor.ts` lines 246 / 319 (with `xOffset = 0`):
`dx = (width - vW * scale) / 2`. -/
def drawDx (outW outH srcW srcH : ℚ) : ℚ :=
  (outW - srcW * coverScale outW outH srcW srcH) / 2

/-- `videoProcessor.ts` lines 247 / 320: `dy = (height - vH * scale) / 2`. -/
def drawDy (outW outH srcW srcH : ℚ) : ℚ :=
  (outH - srcH * coverScale outW outH srcW srcH) / 2

/-- Drawn width `vW * scale` (`drawImage` argument, lines 249 / 323). -/
def drawW (outW outH srcW srcH : ℚ) : ℚ :=
  srcW * coverScale outW outH srcW srcH

/-- Drawn height `vH * scale` (`drawImage` argument, lines 249 / 323). -/
def drawH (outW outH srcW srcH : ℚ) : ℚ :=
  srcH * coverScale outW outH srcW srcH

/-- `videoProcessor.ts` lines 338-339: `ctx.rect(width * (1 - t), 0, width, height)`
as `(x, y, w, h)`. -/
def wipeLeftRect (width height t : ℚ) : ℚ × ℚ × ℚ × ℚ :=
  (width * (1 - t), 0, width, height)

/-- `videoProcessor.ts` lines 348-349: `ctx.rect(0, 0, width * t, height)`. -/
def wipeRightRect (width height t : ℚ) : ℚ × ℚ × ℚ × ℚ :=
  (0, 0, width * t, height)

/-- `[a, b] ∩ [c, d]` on the line, as an interval. -/
def interIv (a b c d : ℚ) : ℚ × ℚ := (max a c, min b d)

/-- Horizontal extent of a clip rectangle `(x, y, w, h)` intersected with the
output surface `[0, width]`. -/
def effectiveRevealX (r : ℚ × ℚ × ℚ × ℚ) (width : ℚ) : ℚ × ℚ :=
  interIv r.1 (r.1 + r.2.2.1) 0 width

/-- Vertical extent of a clip rectangle `(x, y, w, h)` intersected with the
output surface `[0, height]`. -/
def effectiveRevealY (r : ℚ × ℚ × ℚ × ℚ) (height : ℚ) : ℚ × ℚ :=
  interIv r.2.1 (r.2.1 + r.2.2.2) 0 height

/-- `videoProcessor.ts` lines 300-301: normalized transition progress
`Math.min(1, Math.max(0, tCurrent / (transitionDuration || 0.001)))`, where
`tCurrent` is the incoming slot's elapsed time since its seek. -/
def transT (tCurrent transitionDuration : ℚ) : ℚ :=
  min 1 (max 0 (tCurrent / (if transitionDuration = 0 then 1/1000 else transitionDuration)))

/-- `videoProcessor.ts` lines 311-312: the (outgoing, incoming) gain values
written during a transition tick with normalized progress `t`. -/
def transGains (t : ℚ) : ℚ × ℚ := (1 - t, t)

/-- One `drawTrans` tick either ends the phase (`t >= 1`, line 303) or
writes the crossfade gains (lines 311-312) and renders. -/
inductive TickResult where
  | endPhase
  | render (outGain inGain : ℚ)
deriving DecidableEq, Repr

/-- `videoProcessor.ts` lines 297-312: the control decision of one
`drawTrans` tick. -/
def drawTransTick (tCurrent transitionDuration : ℚ) : TickResult :=
  let t := transT tCurrent transitionDuration
  if 1 ≤ t then TickResult.endPhase
  else TickResult.render (transGains t).1 (transGains t).2

/-- `videoProcessor.ts` lines 153-158: the ordered codec preference list tried
for `mp4`/`mov` output. -/
def codecPreference : List String :=
  ["video/mp4", "video/webm;codecs=h264", "video/webm;codecs=vp9"]

/-- `videoProcessor.ts` lines 151-160: the selected recorder MIME type, given
the host's `MediaRecorder.isTypeSupported`. -/
def selectMimeType (format : ExportFormat) (isTypeSupported : String → Bool) : String :=
  if format = ExportFormat.mp4 ∨ format = ExportFormat.mov then
    if isTypeSupported "video/mp4" then "video/mp4"
    else if isTypeSupported "video/webm;codecs=h264" then "video/webm;codecs=h264"
    else if isTypeSupported "video/webm;codecs=vp9" then "video/webm;codecs=vp9"
    else "video/webm"
  else "video/webm"

/-- Observable events of one stitch invocation, in program order. -/
inductive Ev where
  | allocCanvas
  | allocAudioCtx
  | allocSlot (idx : ℕ)
  | allocBgMusic
  | bgSetGain (g : ℚ)
  | recStart (mime : String)
  | recPause
  | recResume
  | recStop
  | bgPlay
  | bgPause
  | progress (p : ℚ)
  | loadClip (i : ℕ)
  | seekClip (i : ℕ) (target : ℚ)
  | playClip (i : ℕ)
  | pauseClip (i : ℕ)
  | soloFrame (i : ℕ)
  | transFrame (i : ℕ) (t : ℚ)
  | setGain (slot : ℕ) (g : ℚ)
deriving DecidableEq, Repr

/-- Wall-clock-dependent parameters of one run. -/
structure RunParams where
  /-- For each timeline index, one entry per solo render tick: whether the
  100ms progress throttle fired on that tick (lines 258-263). -/
  soloEmits : ℕ → List Bool
  /-- For each timeline index, the `nextSlot.video.currentTime - nextStart`
  samples read by successive `drawTrans` ticks (line 300). -/
  transSamples : ℕ → List ℚ
  /-- Whether `currentSlot.video.paused` held at line 291. -/
  currentPausedAtResume : ℕ → Bool

/-- The timeline scene at index `i` (total variant of `validScenes[i]`). -/
def sceneAt (tl : List Scene) (i : ℕ) : Scene := (tl.get? i).getD default

/-- `videoProcessor.ts` lines 233-268: the solo render loop of scene `i` of
`n`, emitting a frame per tick and a throttled progress report
`(i / validScenes.length) * 100` (line 260). -/
def soloPhase (i n : ℕ) (emits : List Bool) : List Ev :=
  emits.flatMap (fun b =>
    Ev.soloFrame i :: (if b then [Ev.progress ((i : ℚ) / (n : ℚ) * 100)] else []))

/-- `videoProcessor.ts` lines 296-369: the transition render loop after scene
`i`; each tick computes `t`, exits at `t >= 1`, and otherwise writes the
crossfade gains (outgoing slot `i % 2`, incoming slot `(i+1) % 2`) and draws. -/
def transPhase (i : ℕ) (td : ℚ) : List ℚ → List Ev
  | [] => []
  | c :: rest =>
    let t := transT c td
    if 1 ≤ t then []
    else
      Ev.setGain (i % 2) (1 - t) :: Ev.setGain ((i + 1) % 2) t
        :: Ev.transFrame i t :: transPhase i td rest

/-- `videoProcessor.ts` lines 193-384: the events of loop iteration `i`
(timeline length `n`). -/
def sceneBlock (tl : List Scene) (n i : ℕ) (rp : RunParams) : List Ev :=
  (if i = 0 then
      [Ev.seekClip 0 (soloStart (sceneAt tl 0)), Ev.playClip 0]
    else [])
  ++ soloPhase i n (rp.soloEmits i)
  ++ (if i + 1 < n then
        [Ev.recPause,
         Ev.progress (((i : ℚ) + 9/10) / (n : ℚ) * 100),
         Ev.loadClip (i + 1),
         Ev.seekClip (i + 1) (soloStart (sceneAt tl (i + 1))),
         Ev.playClip (i + 1)]
        ++ (if rp.currentPausedAtResume i then [Ev.playClip i] else [])
        ++ [Ev.recResume]
        ++ transPhase i (transitionDurationOf (outgoingTransition tl i)) (rp.transSamples i)
        ++ [Ev.pauseClip i, Ev.setGain (i % 2) 1, Ev.setGain ((i + 1) % 2) 1]
      else [Ev.pauseClip i])

/-- Spec §7 names for the engine's terminal failures. -/
inductive StitchError where
  | emptyTimeline
  | encodingUnsupported
deriving DecidableEq, Repr

/-- `videoProcessor.ts` lines 67-411 (`stitchVideos`): the events one
invocation emits together with its terminal failure, if any.  The empty
timeline check (lines 77-79) precedes every allocation; on success the run is
setup (canvas, audio context, two slots, optional music graph; recorder start
at line 178 and music start at line 179), one block per timeline scene, and
the finalization (lines 386-388). -/
def stitchVideos (scenes : List Scene) (bg : Option BackgroundMusic)
    (format : ExportFormat) (isTypeSupported : String → Bool)
    (rp : RunParams) : List Ev × Option StitchError :=
  let valid := validScenes scenes
  if valid.length = 0 then
    ([], some StitchError.emptyTimeline)
  else
    let n := valid.length
    let mime := selectMimeType format isTypeSupported
    let setup :=
      [Ev.allocCanvas, Ev.allocAudioCtx, Ev.allocSlot 0, Ev.allocSlot 1]
      ++ (match bg with
          | some b => [Ev.allocBgMusic, Ev.bgSetGain b.volume]
          | Option.none => [])
      ++ [Ev.recStart mime]
      ++ (match bg with
          | some _ => [Ev.bgPlay]
          | Option.none => [])
      ++ [Ev.progress 0, Ev.loadClip 0]
    let body := (List.range n).flatMap (fun i => sceneBlock valid n i rp)
    let fin :=
      [Ev.progress 100, Ev.recStop]
      ++ (match bg with
          | some _ => [Ev.bgPause]
          | Option.none => [])
    (setup ++ body ++ fin, Option.none)

/-- The two serial volume controls on the background track:
line 128 (`bgMusicEl.volume = bgMusic.volume`) and line 132
(`gainNode.gain.value = bgMusic.volume`). -/
structure BgMusicGraph where
  elementVolume : ℚ
  gainValue : ℚ
deriving DecidableEq, Repr

/-- `videoProcessor.ts` lines 124-135: both controls are set to the
user-configured volume. -/
def setupBgMusic (b : BackgroundMusic) : BgMusicGraph :=
  { elementVolume := b.volume, gainValue := b.volume }

/-- The element feeds a `MediaElementAudioSourceNode` which feeds the gain
node which feeds the destination (lines 130-135); an element captured this
way is still attenuated by its own `volume` attribute, so the signal reaching
the mix is scaled by both controls in series. -/
def bgMixScale (g : BgMusicGraph) : ℚ := g.elementVolume * g.gainValue

/-- Walk a trace with a state machine, requiring a per-event check before the
state advances. -/
def runCheck {σ : Type} (check : σ → Ev → Bool) (step : σ → Ev → σ) :
    σ → List Ev → Bool
  | _, [] => true
  | st, e :: rest => check st e && runCheck check step (step st e) rest

/-- `videoProcessor.ts` lines 199-205: the (kind, duration) of the transition
rendered while timeline clip `i` hands over to clip `i+1`.  It is read from
`validScenes[i+1].transition` (`nextScene?.transition`). -/
def renderedTransitionBetween (tl : List Scene) (i : ℕ) : TransitionType × ℚ :=
  (transitionTypeOf (outgoingTransition tl i),
   transitionDurationOf (outgoingTransition tl i))

/-- Modelled from the spec: the spec's data model (§3) attaches an optional
`transitionIntoNext` to each clip, "the transition from this clip into the
next one"; on the code's `Scene` record the only transition field is
`transition`, so clip `i`'s `transitionIntoNext` reads `tl[i].transition`. -/
def specTransitionIntoNext (tl : List Scene) (i : ℕ) : TransitionType × ℚ :=
  match tl.get? i with
  | some s => (transitionTypeOf s.transition, transitionDurationOf s.transition)
  | Option.none => (TransitionType.none, 0)

/-- Two completed clips: the first configures a 1s fade on its `transition`
field, the second configures nothing. -/
def exFadePair : List Scene :=
  [ { exScene with transition := some { type := TransitionType.fade, duration := 1 } },
    { exScene with scene_number := 2, videoUrl := some "blob:clip2" } ]

/-- A trivial run parameterization (no render ticks anywhere). -/
def exParamsTrivial : RunParams :=
  { soloEmits := fun _ => [], transSamples := fun _ => [],
    currentPausedAtResume := fun _ => false }

/-- MediaRecorder state as driven by the engine. -/
inductive RecState where
  | idle
  | recording
  | paused
  | stopped
deriving DecidableEq, Repr

/-- `recorder.start/pause/resume/stop` transitions (lines 178, 273, 293, 387). -/
def recStep (st : RecState) (e : Ev) : RecState :=
  match e with
  | Ev.recStart _ => RecState.recording
  | Ev.recPause => RecState.paused
  | Ev.recResume => RecState.recording
  | Ev.recStop => RecState.stopped
  | _ => st

/-- The claim's per-event requirement: every clip load and every seek happens
while the sink is paused. -/
def loadSeekPausedCheck (st : RecState) (e : Ev) : Bool :=
  match e with
  | Ev.loadClip _ => decide (st = RecState.paused)
  | Ev.seekClip _ _ => decide (st = RecState.paused)
  | _ => true

/-- The amended per-event requirement: every load/seek of a clip other than
the first happens while the sink is paused. -/
def laterLoadSeekPausedCheck (st : RecState) (e : Ev) : Bool :=
  match e with
  | Ev.loadClip (_ + 1) => decide (st = RecState.paused)
  | Ev.seekClip (_ + 1) _ => decide (st = RecState.paused)
  | _ => true

/-- Pending-standby bookkeeping: between `recorder.pause()` and the matching
`recorder.resume()` the standby slot must both load and seek.  The state
records `(loaded, seeked)` inside a pause window, `none` outside one. -/
def prStep (st : Option (Bool × Bool)) (e : Ev) : Option (Bool × Bool) :=
  match st, e with
  | _, Ev.recPause => some (false, false)
  | some (_, s), Ev.loadClip _ => some (true, s)
  | some (l, _), Ev.seekClip _ _ => some (l, true)
  | _, Ev.recResume => Option.none
  | st, _ => st

/-- The sink may resume only when the pause window saw both the standby load
and the standby seek complete. -/
def resumeReadyCheck (st : Option (Bool × Bool)) (e : Ev) : Bool :=
  match st, e with
  | some (l, s), Ev.recResume => l && s
  | Option.none, Ev.recResume => false
  | _, _ => true

def isBgPlay (e : Ev) : Bool :=
  match e with
  | Ev.bgPlay => true
  | _ => false

def isBgPause (e : Ev) : Bool :=
  match e with
  | Ev.bgPause => true
  | _ => false

/-- The gain value a `bgSetGain` event writes (lines 128-132 happen once,
during mix-graph setup). -/
def bgGainOf (e : Ev) : Option ℚ :=
  match e with
  | Ev.bgSetGain g => some g
  | _ => Option.none

/-- Whether the background track is audible after an event. -/
def bgStep (playing : Bool) (e : Ev) : Bool :=
  match e with
  | Ev.bgPlay => true
  | Ev.bgPause => false
  | _ => playing

/-- Every rendered frame must happen while the background track plays. -/
def bgWindowCheck (playing : Bool) (e : Ev) : Bool :=
  match e with
  | Ev.soloFrame _ => playing
  | Ev.transFrame _ _ => playing
  | _ => true

/-- The percent argument of a progress event. -/
def progressOf (e : Ev) : Option ℚ :=
  match e with
  | Ev.progress p => some p
  | _ => Option.none

/-- The sequence of percent values one run reports, in order. -/
def progressValues (tr : List Ev) : List ℚ := tr.filterMap progressOf

/-- The percent values block `i` of `n` reports: the throttled
`(i / n) * 100` during solo playback, then `((i + 0.9) / n) * 100` when a
handover to clip `i+1` is prepared. -/
def blockProgress (n i : ℕ) (rp : RunParams) : List ℚ :=
  List.replicate ((rp.soloEmits i).count true) ((i : ℚ) / (n : ℚ) * 100)
    ++ (if i + 1 < n then [((i : ℚ) + 9/10) / (n : ℚ) * 100] else [])

/-! ## Theorems -/

theorem soloEnd_formula (tl : List Scene) (i : ℕ) (s : Scene) (dur : ℚ)
    (hmem : tl.get? i = some s)
    (h0 : 0 ≤ soloStart s) (h1 : 0 ≤ endTrimOf s)
    (h2 : soloStart s + endTrimOf s ≤ dur) :
    soloEndTime tl i s dur
        = max (soloStart s)
            ((dur - endTrimOf s) - transitionDurationOf (outgoingTransition tl i))
      ∧ (transitionTypeOf (outgoingTransition tl i) = TransitionType.none →
          soloEndTime tl i s dur = dur - endTrimOf s) := by
  have hend : clipEnd s dur = dur - endTrimOf s := by
    unfold clipEnd
    have : dur - endTrimOf s ≤ dur := by linarith
    simp [min_eq_right this]
  have hstart_le : soloStart s ≤ dur - endTrimOf s := by linarith
  have hzero : transitionTypeOf (outgoingTransition tl i) = TransitionType.none →
      transitionDurationOf (outgoingTransition tl i) = 0 := by
    intro ht
    cases htr : outgoingTransition tl i with
    | none => simp [transitionDurationOf]
    | some t =>
      rw [htr] at ht
      have htt : t.type = TransitionType.none := by
        simpa [transitionTypeOf] using ht
      simp [transitionDurationOf, htt]
  constructor
  · unfold soloEndTime
    by_cases hnext : i + 1 < tl.length
    · simp [hnext, hend]
    · -- last clip: `outgoingTransition` is `none`, so the claimed max collapses
      have hnone : outgoingTransition tl i = Option.none := by
        have hlen : tl.length ≤ i + 1 := Nat.le_of_not_lt hnext
        unfold outgoingTransition
        rw [List.get?_eq_none.mpr hlen]
      simp only [hnext, if_false, hnone, hend]
      rw [show transitionDurationOf Option.none = 0 from rfl, sub_zero]
      rw [max_eq_right (by linarith)]
  · intro ht
    have hd0 := hzero ht
    unfold soloEndTime
    by_cases hnext : i + 1 < tl.length
    · simp only [hnext, if_true, hd0, hend, sub_zero]
      exact max_eq_right hstart_le
    · simp [hnext, hend]

/-- C8: with positive source and output dimensions and zero offset, the draw
uses `scale = max(outW/srcW, outH/srcH)`, centers the frame, and the drawn
rectangle `[dx, dx+drawW] × [dy, dy+drawH]` contains the whole output surface
`[0, outW] × [0, outH]`: full coverage, no letterboxing. -/
theorem coverFit_covers_output (outW outH srcW srcH : ℚ)
    (hW : 0 < outW) (hH : 0 < outH) (hw : 0 < srcW) (hh : 0 < srcH) :
    drawDx outW outH srcW srcH = (outW - drawW outW outH srcW srcH) / 2
      ∧ drawDy outW outH srcW srcH = (outH - drawH outW outH srcW srcH) / 2
      ∧ drawDx outW outH srcW srcH ≤ 0
      ∧ drawDy outW outH srcW srcH ≤ 0
      ∧ outW ≤ drawDx outW outH srcW srcH + drawW outW outH srcW srcH
      ∧ outH ≤ drawDy outW outH srcW srcH + drawH outW outH srcW srcH
      ∧ (∀ x y : ℚ, 0 ≤ x → x ≤ outW → 0 ≤ y → y ≤ outH →
          drawDx outW outH srcW srcH ≤ x
            ∧ x ≤ drawDx outW outH srcW srcH + drawW outW outH srcW srcH
            ∧ drawDy outW outH srcW srcH ≤ y
            ∧ y ≤ drawDy outW outH srcW srcH + drawH outW outH srcW srcH) := by
  have hsW : outW ≤ drawW outW outH srcW srcH := by
    have : outW / srcW ≤ coverScale outW outH srcW srcH := le_max_left _ _
    calc outW = srcW * (outW / srcW) := by field_simp
    _ ≤ srcW * coverScale outW outH srcW srcH := by
        exact mul_le_mul_of_nonneg_left this (le_of_lt hw)
    _ = drawW outW outH srcW srcH := rfl
  have hsH : outH ≤ drawH outW outH srcW srcH := by
    have : outH / srcH ≤ coverScale outW outH srcW srcH := le_max_right _ _
    calc outH = srcH * (outH / srcH) := by field_simp
    _ ≤ srcH * coverScale outW outH srcW srcH := by
        exact mul_le_mul_of_nonneg_left this (le_of_lt hh)
    _ = drawH outW outH srcW srcH := rfl
  have hdx : drawDx outW outH srcW srcH = (outW - drawW outW outH srcW srcH) / 2 := rfl
  have hdy : drawDy outW outH srcW srcH = (outH - drawH outW outH srcW srcH) / 2 := rfl
  have hdx0 : drawDx outW outH srcW srcH ≤ 0 := by rw [hdx]; linarith
  have hdy0 : drawDy outW outH srcW srcH ≤ 0 := by rw [hdy]; linarith
  have hdxW : outW ≤ drawDx outW outH srcW srcH + drawW outW outH srcW srcH := by
    rw [hdx]; linarith
  have hdyH : outH ≤ drawDy outW outH srcW srcH + drawH outW outH srcW srcH := by
    rw [hdy]; linarith
  refine ⟨hdx, hdy, hdx0, hdy0, hdxW, hdyH, ?_⟩
  intro x y hx0 hxW hy0 hyH
  exact ⟨le_trans hdx0 hx0, le_trans hxW hdxW, le_trans hdy0 hy0, le_trans hyH hdyH⟩

theorem coverFit_covers_output_witness :
    (0 : ℚ) < 1080 ∧ (0 : ℚ) < 1920 ∧ (0 : ℚ) < 1280 ∧ (0 : ℚ) < 720 ∧
      (drawDx 1080 1920 1280 720 = (1080 - drawW 1080 1920 1280 720) / 2
        ∧ drawDy 1080 1920 1280 720 = (1920 - drawH 1080 1920 1280 720) / 2
        ∧ drawDx 1080 1920 1280 720 ≤ 0
        ∧ drawDy 1080 1920 1280 720 ≤ 0
        ∧ 1080 ≤ drawDx 1080 1920 1280 720 + drawW 1080 1920 1280 720
        ∧ 1920 ≤ drawDy 1080 1920 1280 720 + drawH 1080 1920 1280 720
        ∧ (∀ x y : ℚ, 0 ≤ x → x ≤ 1080 → 0 ≤ y → y ≤ 1920 →
            drawDx 1080 1920 1280 720 ≤ x
              ∧ x ≤ drawDx 1080 1920 1280 720 + drawW 1080 1920 1280 720
              ∧ drawDy 1080 1920 1280 720 ≤ y
              ∧ y ≤ drawDy 1080 1920 1280 720 + drawH 1080 1920 1280 720)) :=
  ⟨by norm_num, by norm_num, by norm_num, by norm_num,
    coverFit_covers_output 1080 1920 1280 720 (by norm_num) (by norm_num)
      (by norm_num) (by norm_num)⟩

/-- C9: for `t ∈ [0,1]` on a positive output surface, the effective reveal
rectangle of `wipe_left` is `[width×(1−t), width] × [0, height]`, that of
`wipe_right` is `[0, width×t] × [0, height]`, and the two horizontal extents
are exact mirrors of each other under `x ↦ width − x`. -/
theorem wipe_reveal_rects (width height t : ℚ)
    (hW : 0 < width) (hH : 0 < height) (ht0 : 0 ≤ t) (ht1 : t ≤ 1) :
    effectiveRevealX (wipeLeftRect width height t) width = (width * (1 - t), width)
      ∧ effectiveRevealY (wipeLeftRect width height t) height = (0, height)
      ∧ effectiveRevealX (wipeRightRect width height t) width = (0, width * t)
      ∧ effectiveRevealY (wipeRightRect width height t) height = (0, height)
      ∧ (width - (effectiveRevealX (wipeRightRect width height t) width).2,
         width - (effectiveRevealX (wipeRightRect width height t) width).1)
          = effectiveRevealX (wipeLeftRect width height t) width := by
  have h1t : 0 ≤ 1 - t := by linarith
  have hx0 : 0 ≤ width * (1 - t) := mul_nonneg (le_of_lt hW) h1t
  have hxw : width ≤ width * (1 - t) + width := by linarith
  have htw : width * t ≤ width := by nlinarith
  have hwl : effectiveRevealX (wipeLeftRect width height t) width
      = (width * (1 - t), width) := by
    unfold effectiveRevealX wipeLeftRect interIv
    simp only []
    rw [max_eq_left hx0, min_eq_right hxw]
  have hwly : effectiveRevealY (wipeLeftRect width height t) height = (0, height) := by
    unfold effectiveRevealY wipeLeftRect interIv
    simp only []
    rw [max_self, zero_add, min_self]
  have hwr : effectiveRevealX (wipeRightRect width height t) width = (0, width * t) := by
    unfold effectiveRevealX wipeRightRect interIv
    simp only []
    rw [max_self, zero_add, min_eq_left htw]
  have hwry : effectiveRevealY (wipeRightRect width height t) height = (0, height) := by
    unfold effectiveRevealY wipeRightRect interIv
    simp only []
    rw [max_self, zero_add, min_self]
  refine ⟨hwl, hwly, hwr, hwry, ?_⟩
  rw [hwr, hwl]
  have e1 : width - width * t = width * (1 - t) := by ring
  have e2 : width - (0 : ℚ) = width := by ring
  rw [Prod.mk.injEq]
  exact ⟨e1, e2⟩

theorem wipe_reveal_rects_witness :
    (0 : ℚ) < 1280 ∧ (0 : ℚ) < 720 ∧ (0 : ℚ) ≤ 1/4 ∧ (1/4 : ℚ) ≤ 1 ∧
      (effectiveRevealX (wipeLeftRect 1280 720 (1/4)) 1280 = (1280 * (1 - 1/4), 1280)
        ∧ effectiveRevealY (wipeLeftRect 1280 720 (1/4)) 720 = (0, 720)
        ∧ effectiveRevealX (wipeRightRect 1280 720 (1/4)) 1280 = (0, 1280 * (1/4))
        ∧ effectiveRevealY (wipeRightRect 1280 720 (1/4)) 720 = (0, 720)
        ∧ (1280 - (effectiveRevealX (wipeRightRect 1280 720 (1/4)) 1280).2,
           1280 - (effectiveRevealX (wipeRightRect 1280 720 (1/4)) 1280).1)
            = effectiveRevealX (wipeLeftRect 1280 720 (1/4)) 1280) :=
  ⟨by norm_num, by norm_num, by norm_num, by norm_num,
    wipe_reveal_rects 1280 720 (1/4) (by norm_num) (by norm_num) (by norm_num)
      (by norm_num)⟩

theorem runCheck_append {σ : Type} (check : σ → Ev → Bool) (step : σ → Ev → σ)
    (st : σ) (l1 l2 : List Ev) :
    runCheck check step st (l1 ++ l2)
      = (runCheck check step st l1 && runCheck check step (l1.foldl step st) l2) := by
  induction l1 generalizing st with
  | nil => simp [runCheck]
  | cons e l ih =>
    simp only [List.cons_append, runCheck, List.foldl_cons, List.append_eq]
    rw [ih, Bool.and_assoc]

theorem runCheck_flatMap {σ : Type} (check : σ → Ev → Bool) (step : σ → Ev → σ)
    (st : σ) (l : List ℕ) (f : ℕ → List Ev)
    (hblock : ∀ i, runCheck check step st (f i) = true ∧ (f i).foldl step st = st) :
    runCheck check step st (l.flatMap f) = true ∧
      (l.flatMap f).foldl step st = st := by
  induction l with
  | nil => simp [runCheck]
  | cons i l ih =>
    rw [List.flatMap_cons]
    constructor
    · rw [runCheck_append, (hblock i).1, (hblock i).2, ih.1]
      rfl
    · rw [List.foldl_append, (hblock i).2, ih.2]

/-- C4: when the input list has no completed clip, stitching fails with the
empty-timeline error (`videoProcessor.ts` lines 77-79, spec name
`EmptyTimelineError`) and the emitted trace is empty: no slot, surface, audio
or recorder resource was allocated. -/
theorem empty_timeline_fails_before_allocation (scenes : List Scene)
    (bg : Option BackgroundMusic) (format : ExportFormat)
    (isTypeSupported : String → Bool) (rp : RunParams)
    (h : scenes.filter (fun s => decide (s.status = SceneStatus.completed)) = []) :
    stitchVideos scenes bg format isTypeSupported rp
      = ([], some StitchError.emptyTimeline) := by
  have hnc : ∀ s ∈ scenes, s.status ≠ SceneStatus.completed := by
    intro s hs
    have := List.filter_eq_nil.mp h s hs
    simpa using this
  have hv : validScenes scenes = [] := by
    apply List.filter_eq_nil.mpr
    intro s hs
    have hne := hnc s hs
    simp [isValidScene, hne]
  unfold stitchVideos
  simp [hv]

theorem empty_timeline_fails_before_allocation_witness :
    ([ { exScene with status := SceneStatus.error } ].filter
        (fun s => decide (s.status = SceneStatus.completed)) = [])
      ∧ stitchVideos [ { exScene with status := SceneStatus.error } ] Option.none
          ExportFormat.mp4 (fun _ => true)
          ⟨fun _ => [], fun _ => [], fun _ => false⟩
        = ([], some StitchError.emptyTimeline) :=
  ⟨by decide,
    empty_timeline_fails_before_allocation _ Option.none ExportFormat.mp4
      (fun _ => true) ⟨fun _ => [], fun _ => [], fun _ => false⟩ (by decide)⟩

/-- C6 counterexample: between clips 0 and 1 the engine renders the
configuration found on clip 1 (none), not the one on clip 0 (a 1s fade): the
claim's "the transition rendered between clips i and i+1 is the one
configured on clip i" fails at `i = 0` of this two-clip timeline. -/
theorem transition_source_counterexample :
    renderedTransitionBetween exFadePair 0 ≠ specTransitionIntoNext exFadePair 0
      ∧ renderedTransitionBetween exFadePair 0 = (TransitionType.none, 0)
      ∧ specTransitionIntoNext exFadePair 0 = (TransitionType.fade, 1) := by
  refine ⟨?_, ?_, ?_⟩
  · decide
  · decide
  · decide

/-- C6 (amended): the transition rendered between consecutive timeline clips
`i` and `i+1` is the one configured on clip `i+1`'s `transition` field (the
transition *into* that clip, as `types.ts` documents it), and the first
clip's transition configuration is never consulted. -/
theorem transition_read_from_incoming_clip :
    (∀ (tl : List Scene) (i : ℕ) (next : Scene), tl.get? (i + 1) = some next →
        renderedTransitionBetween tl i
          = (transitionTypeOf next.transition, transitionDurationOf next.transition))
      ∧ (∀ (s0 s0' : Scene) (rest : List Scene) (i : ℕ),
          renderedTransitionBetween (s0 :: rest) i
            = renderedTransitionBetween (s0' :: rest) i) := by
  constructor
  · intro tl i next hnext
    unfold renderedTransitionBetween outgoingTransition
    rw [hnext]
  · intro s0 s0' rest i
    unfold renderedTransitionBetween outgoingTransition
    have h : (s0 :: rest).get? (i + 1) = (s0' :: rest).get? (i + 1) := by
      simp [List.get?_cons_succ]
    rw [h]

/-- C7 counterexample: on a host supporting none of the preferred codecs the
engine does not fail — it falls back to `video/webm` and the stitch reports
no error at all (the code has no `EncodingUnsupportedError` path). -/
theorem codec_selection_counterexample :
    selectMimeType ExportFormat.mp4 (fun _ => false) = "video/webm"
      ∧ (stitchVideos [exScene] Option.none ExportFormat.mp4 (fun _ => false)
            exParamsTrivial).2 = Option.none := by
  constructor
  · rfl
  · rfl

/-- C7 (amended): at stitch start the engine picks the first supported codec
from the ordered preference list `[video/mp4, video/webm;codecs=h264,
video/webm;codecs=vp9]` (tried for the `mp4`/`mov` formats, which are the
only export formats), and when none of them is supported it falls back to
`video/webm` instead of failing: no stitch ever reports an
encoding-unsupported error. -/
theorem codec_selection_fallback (format : ExportFormat) (sup : String → Bool) :
    (sup "video/mp4" = true → selectMimeType format sup = "video/mp4")
      ∧ (sup "video/mp4" = false → sup "video/webm;codecs=h264" = true →
          selectMimeType format sup = "video/webm;codecs=h264")
      ∧ (sup "video/mp4" = false → sup "video/webm;codecs=h264" = false →
          sup "video/webm;codecs=vp9" = true →
          selectMimeType format sup = "video/webm;codecs=vp9")
      ∧ ((∀ c ∈ codecPreference, sup c = false) →
          selectMimeType format sup = "video/webm")
      ∧ (∀ (scenes : List Scene) (bg : Option BackgroundMusic) (rp : RunParams),
          (stitchVideos scenes bg format sup rp).2
            ≠ some StitchError.encodingUnsupported) := by
  have hfmt : format = ExportFormat.mp4 ∨ format = ExportFormat.mov := by
    cases format
    · exact Or.inl rfl
    · exact Or.inr rfl
  refine ⟨?_, ?_, ?_, ?_, ?_⟩
  · intro h1
    unfold selectMimeType
    simp [hfmt, h1]
  · intro h1 h2
    unfold selectMimeType
    simp [hfmt, h1, h2]
  · intro h1 h2 h3
    unfold selectMimeType
    simp [hfmt, h1, h2, h3]
  · intro hall
    have h1 := hall "video/mp4" (by simp [codecPreference])
    have h2 := hall "video/webm;codecs=h264" (by simp [codecPreference])
    have h3 := hall "video/webm;codecs=vp9" (by simp [codecPreference])
    unfold selectMimeType
    simp [hfmt, h1, h2, h3]
  · intro scenes bg rp
    unfold stitchVideos
    by_cases h : (validScenes scenes).length = 0
    · simp [h]
    · simp [h]

theorem transT_bounds (c d : ℚ) : 0 ≤ transT c d ∧ transT c d ≤ 1 := by
  unfold transT
  constructor
  · exact le_min (by norm_num) (le_max_left 0 _)
  · exact min_le_left _ _

theorem mem_soloPhase {e : Ev} {i n : ℕ} {em : List Bool}
    (h : e ∈ soloPhase i n em) :
    e = Ev.soloFrame i ∨ e = Ev.progress ((i : ℚ) / (n : ℚ) * 100) := by
  unfold soloPhase at h
  rw [List.mem_flatMap] at h
  obtain ⟨b, _, hb⟩ := h
  rcases List.mem_cons.mp hb with h | h
  · exact Or.inl h
  · right
    by_cases hbv : b = true
    · simp [hbv] at h
      exact h
    · simp [Bool.eq_false_iff.mpr hbv] at h

theorem mem_transPhase {e : Ev} {i : ℕ} {td : ℚ} {cs : List ℚ}
    (h : e ∈ transPhase i td cs) :
    ∃ t : ℚ, 0 ≤ t ∧ t ≤ 1 ∧
      (e = Ev.setGain (i % 2) (1 - t) ∨ e = Ev.setGain ((i + 1) % 2) t
        ∨ e = Ev.transFrame i t) := by
  induction cs with
  | nil => simp [transPhase] at h
  | cons c rest ih =>
    rw [transPhase] at h
    by_cases h1 : 1 ≤ transT c td
    · simp [h1] at h
    · simp only [if_neg h1, List.mem_cons] at h
      rcases h with h | h | h | h
      · exact ⟨transT c td, (transT_bounds c td).1, (transT_bounds c td).2, Or.inl h⟩
      · exact ⟨transT c td, (transT_bounds c td).1, (transT_bounds c td).2,
          Or.inr (Or.inl h)⟩
      · exact ⟨transT c td, (transT_bounds c td).1, (transT_bounds c td).2,
          Or.inr (Or.inr h)⟩
      · exact ih h

/-- Every event a scene block can contain (used to rule classes of events out
of the body of a run). -/
theorem mem_sceneBlock {e : Ev} {tl : List Scene} {n i : ℕ} {rp : RunParams}
    (h : e ∈ sceneBlock tl n i rp) :
    (∃ j tgt, e = Ev.seekClip j tgt) ∨ (∃ j, e = Ev.playClip j)
      ∨ (∃ j, e = Ev.loadClip j) ∨ (∃ j, e = Ev.pauseClip j)
      ∨ (∃ j, e = Ev.soloFrame j) ∨ (∃ j t, e = Ev.transFrame j t)
      ∨ (∃ p, e = Ev.progress p) ∨ (∃ s g, e = Ev.setGain s g)
      ∨ e = Ev.recPause ∨ e = Ev.recResume := by
  unfold sceneBlock at h
  rcases List.mem_append.mp h with h | h
  · rcases List.mem_append.mp h with h | h
    · by_cases h0 : i = 0
      · rw [if_pos h0] at h
        rcases List.mem_cons.mp h with h | h
        · exact Or.inl ⟨0, _, h⟩
        · simp at h
          exact Or.inr (Or.inl ⟨0, h⟩)
      · rw [if_neg h0] at h
        simp at h
    · rcases mem_soloPhase h with h | h
      · exact Or.inr (Or.inr (Or.inr (Or.inr (Or.inl ⟨i, h⟩))))
      · exact Or.inr (Or.inr (Or.inr (Or.inr (Or.inr (Or.inr (Or.inl ⟨_, h⟩))))))
  · by_cases hn : i + 1 < n
    · rw [if_pos hn] at h
      rcases List.mem_append.mp h with h | h
      · rcases List.mem_append.mp h with h | h
        · rcases List.mem_append.mp h with h | h
          · rcases List.mem_append.mp h with h | h
            · rcases List.mem_cons.mp h with h | h
              · exact Or.inr (Or.inr (Or.inr (Or.inr (Or.inr (Or.inr (Or.inr
                  (Or.inr (Or.inl h))))))))
              · rcases List.mem_cons.mp h with h | h
                · exact Or.inr (Or.inr (Or.inr (Or.inr (Or.inr (Or.inr
                    (Or.inl ⟨_, h⟩))))))
                · rcases List.mem_cons.mp h with h | h
                  · exact Or.inr (Or.inr (Or.inl ⟨_, h⟩))
                  · rcases List.mem_cons.mp h with h | h
                    · exact Or.inl ⟨_, _, h⟩
                    · simp at h
                      exact Or.inr (Or.inl ⟨_, h⟩)
            · by_cases hp : rp.currentPausedAtResume i
              · rw [if_pos hp] at h
                simp at h
                exact Or.inr (Or.inl ⟨_, h⟩)
              · rw [if_neg hp] at h
                simp at h
          · simp at h
            exact Or.inr (Or.inr (Or.inr (Or.inr (Or.inr (Or.inr (Or.inr
              (Or.inr (Or.inr h))))))))
        · rcases mem_transPhase h with ⟨t, _, _, ht⟩
          rcases ht with ht | ht | ht
          · exact Or.inr (Or.inr (Or.inr (Or.inr (Or.inr (Or.inr (Or.inr
              (Or.inl ⟨_, _, ht⟩)))))))
          · exact Or.inr (Or.inr (Or.inr (Or.inr (Or.inr (Or.inr (Or.inr
              (Or.inl ⟨_, _, ht⟩)))))))
          · exact Or.inr (Or.inr (Or.inr (Or.inr (Or.inr (Or.inl ⟨_, _, ht⟩)))))
      · rcases List.mem_cons.mp h with h | h
        · exact Or.inr (Or.inr (Or.inr (Or.inl ⟨_, h⟩)))
        · rcases List.mem_cons.mp h with h | h
          · exact Or.inr (Or.inr (Or.inr (Or.inr (Or.inr (Or.inr (Or.inr
              (Or.inl ⟨_, _, h⟩)))))))
          · simp at h
            exact Or.inr (Or.inr (Or.inr (Or.inr (Or.inr (Or.inr (Or.inr
              (Or.inl ⟨_, _, h⟩)))))))
    · rw [if_neg hn] at h
      simp at h
      exact Or.inr (Or.inr (Or.inr (Or.inl ⟨_, h⟩)))

/-- Gain values written inside a transition loop stay within `[0, 1]`. -/
theorem setGain_transPhase {i : ℕ} {td : ℚ} {cs : List ℚ} {s : ℕ} {g : ℚ}
    (h : Ev.setGain s g ∈ transPhase i td cs) : 0 ≤ g ∧ g ≤ 1 := by
  rcases mem_transPhase h with ⟨t, ht0, ht1, hcase⟩
  rcases hcase with hc | hc | hc
  · have : g = 1 - t := by
      injection hc with h1 h2
    constructor <;> [skip; skip] <;> rw [this] <;> linarith
  · have : g = t := by
      injection hc with h1 h2
    rw [this]
    exact ⟨ht0, ht1⟩
  · exact absurd hc (by simp)

/-- Gain values written anywhere in a scene block stay within `[0, 1]`. -/
theorem setGain_sceneBlock {tl : List Scene} {n i : ℕ} {rp : RunParams}
    {s : ℕ} {g : ℚ} (h : Ev.setGain s g ∈ sceneBlock tl n i rp) :
    0 ≤ g ∧ g ≤ 1 := by
  unfold sceneBlock at h
  rcases List.mem_append.mp h with h | h
  · rcases List.mem_append.mp h with h | h
    · by_cases h0 : i = 0
      · rw [if_pos h0] at h
        simp at h
      · rw [if_neg h0] at h
        simp at h
    · rcases mem_soloPhase h with h | h <;> simp at h
  · by_cases hn : i + 1 < n
    · rw [if_pos hn] at h
      rcases List.mem_append.mp h with h | h
      · rcases List.mem_append.mp h with h | h
        · rcases List.mem_append.mp h with h | h
          · rcases List.mem_append.mp h with h | h
            · simp at h
            · by_cases hp : rp.currentPausedAtResume i
              · rw [if_pos hp] at h
                simp at h
              · rw [if_neg hp] at h
                simp at h
          · simp at h
        · exact setGain_transPhase h
      · rcases List.mem_cons.mp h with h | h
        · simp at h
        · rcases List.mem_cons.mp h with h | h
          · have : g = 1 := by
              injection h with h1 h2
            rw [this]
            norm_num
          · simp at h
            have : g = 1 := h.2
            rw [this]
            norm_num
    · rw [if_neg hn] at h
      simp at h

/-- C2: during a transition each render tick with normalized progress `t < 1`
writes outgoing volume `1 − t` and incoming volume `t`; `t` is always clamped
to `[0,1]`, the gain formula gives exactly `(1,0)` at `t=0` and `(0,1)` at
`t=1`, every gain value ever written in a run lies in `[0,1]`, and on SWAP
the scene block resets both slots' gains to exactly `1`. -/
theorem transition_crossfade_volumes :
    (∀ c d : ℚ, 0 ≤ transT c d ∧ transT c d ≤ 1)
      ∧ (∀ c d : ℚ, transT c d < 1 →
          drawTransTick c d = TickResult.render (1 - transT c d) (transT c d))
      ∧ (∀ c d : ℚ, 1 ≤ transT c d → drawTransTick c d = TickResult.endPhase)
      ∧ transGains 0 = (1, 0)
      ∧ transGains 1 = (0, 1)
      ∧ (∀ (scenes : List Scene) (bg : Option BackgroundMusic)
            (format : ExportFormat) (sup : String → Bool) (rp : RunParams)
            (s : ℕ) (g : ℚ),
          Ev.setGain s g ∈ (stitchVideos scenes bg format sup rp).1 →
            0 ≤ g ∧ g ≤ 1)
      ∧ (∀ (tl : List Scene) (n i : ℕ) (rp : RunParams), i + 1 < n →
          ∃ l : List Ev, sceneBlock tl n i rp
            = l ++ [Ev.pauseClip i, Ev.setGain (i % 2) 1,
                    Ev.setGain ((i + 1) % 2) 1]) := by
  refine ⟨transT_bounds, ?_, ?_, ?_, ?_, ?_, ?_⟩
  · intro c d h
    unfold drawTransTick
    rw [if_neg (not_le.mpr h)]
    rfl
  · intro c d h
    unfold drawTransTick
    rw [if_pos h]
  · unfold transGains
    norm_num
  · unfold transGains
    norm_num
  · intro scenes bg format sup rp s g h
    unfold stitchVideos at h
    by_cases hval : (validScenes scenes).length = 0
    · simp [hval] at h
    · rw [if_neg hval] at h
      cases bg with
      | none =>
        simp only [List.mem_append, List.mem_cons, List.not_mem_nil,
          List.mem_flatMap, List.mem_singleton] at h
        simp only [List.mem_range, reduceCtorEq, or_false, false_or] at h
        obtain ⟨j, _, hj⟩ := h
        exact setGain_sceneBlock hj
      | some b =>
        simp only [List.mem_append, List.mem_cons, List.not_mem_nil,
          List.mem_flatMap, List.mem_singleton] at h
        simp only [List.mem_range, reduceCtorEq, or_false, false_or] at h
        obtain ⟨j, _, hj⟩ := h
        exact setGain_sceneBlock hj
  · intro tl n i rp hn
    refine ⟨(if i = 0 then
        [Ev.seekClip 0 (soloStart (sceneAt tl 0)), Ev.playClip 0] else [])
      ++ soloPhase i n (rp.soloEmits i)
      ++ ([Ev.recPause,
           Ev.progress (((i : ℚ) + 9/10) / (n : ℚ) * 100),
           Ev.loadClip (i + 1),
           Ev.seekClip (i + 1) (soloStart (sceneAt tl (i + 1))),
           Ev.playClip (i + 1)]
          ++ (if rp.currentPausedAtResume i then [Ev.playClip i] else [])
          ++ [Ev.recResume]
          ++ transPhase i (transitionDurationOf (outgoingTransition tl i))
              (rp.transSamples i)), ?_⟩
    unfold sceneBlock
    rw [if_pos hn]
    simp [List.append_assoc]

theorem runCheck_of_inert {σ : Type} (check : σ → Ev → Bool) (step : σ → Ev → σ)
    (l : List Ev) (st : σ) (h : ∀ e ∈ l, check st e = true ∧ step st e = st) :
    runCheck check step st l = true ∧ l.foldl step st = st := by
  induction l with
  | nil => exact ⟨rfl, rfl⟩
  | cons e rest ih =>
    have he := h e (List.mem_cons_self e rest)
    have hr := ih (fun e' he' => h e' (List.mem_cons_of_mem e he'))
    constructor
    · rw [runCheck, he.1, he.2, hr.1]
      rfl
    · rw [List.foldl_cons, he.2, hr.2]

theorem sceneBlock_rec_invariant (tl : List Scene) (n i : ℕ) (rp : RunParams) :
    runCheck laterLoadSeekPausedCheck recStep RecState.recording
        (sceneBlock tl n i rp) = true
      ∧ (sceneBlock tl n i rp).foldl recStep RecState.recording
          = RecState.recording := by
  have hsolo1 : ∀ (j m : ℕ) (em : List Bool),
      runCheck laterLoadSeekPausedCheck recStep RecState.recording
        (soloPhase j m em) = true := fun j m em =>
    (runCheck_of_inert _ _ _ _ (fun e he => by
      rcases mem_soloPhase he with rfl | rfl <;> exact ⟨rfl, rfl⟩)).1
  have hsolo2 : ∀ (j m : ℕ) (em : List Bool),
      (soloPhase j m em).foldl recStep RecState.recording
        = RecState.recording := fun j m em =>
    (runCheck_of_inert laterLoadSeekPausedCheck _ _ _ (fun e he => by
      rcases mem_soloPhase he with rfl | rfl <;> exact ⟨rfl, rfl⟩)).2
  have htrans1 : ∀ (j : ℕ) (td : ℚ) (cs : List ℚ),
      runCheck laterLoadSeekPausedCheck recStep RecState.recording
        (transPhase j td cs) = true := fun j td cs =>
    (runCheck_of_inert _ _ _ _ (fun e he => by
      rcases mem_transPhase he with ⟨t, _, _, hc⟩
      rcases hc with rfl | rfl | rfl <;> exact ⟨rfl, rfl⟩)).1
  have htrans2 : ∀ (j : ℕ) (td : ℚ) (cs : List ℚ),
      (transPhase j td cs).foldl recStep RecState.recording
        = RecState.recording := fun j td cs =>
    (runCheck_of_inert laterLoadSeekPausedCheck _ _ _ (fun e he => by
      rcases mem_transPhase he with ⟨t, _, _, hc⟩
      rcases hc with rfl | rfl | rfl <;> exact ⟨rfl, rfl⟩)).2
  unfold sceneBlock
  by_cases hn : i + 1 < n
  · rw [if_pos hn]
    by_cases hp : rp.currentPausedAtResume i
    · rw [if_pos hp]
      by_cases h0 : i = 0
      · rw [if_pos h0]
        constructor <;>
          simp [runCheck_append, List.foldl_append, runCheck,
            laterLoadSeekPausedCheck, recStep, hsolo1, hsolo2, htrans1, htrans2]
      · rw [if_neg h0]
        constructor <;>
          simp [runCheck_append, List.foldl_append, runCheck,
            laterLoadSeekPausedCheck, recStep, hsolo1, hsolo2, htrans1, htrans2]
    · rw [if_neg hp]
      by_cases h0 : i = 0
      · rw [if_pos h0]
        constructor <;>
          simp [runCheck_append, List.foldl_append, runCheck,
            laterLoadSeekPausedCheck, recStep, hsolo1, hsolo2, htrans1, htrans2]
      · rw [if_neg h0]
        constructor <;>
          simp [runCheck_append, List.foldl_append, runCheck,
            laterLoadSeekPausedCheck, recStep, hsolo1, hsolo2, htrans1, htrans2]
  · rw [if_neg hn]
    by_cases h0 : i = 0
    · rw [if_pos h0]
      constructor <;>
        simp [runCheck_append, List.foldl_append, runCheck,
          laterLoadSeekPausedCheck, recStep, hsolo1, hsolo2, htrans1, htrans2]
    · rw [if_neg h0]
      constructor <;>
        simp [runCheck_append, List.foldl_append, runCheck,
          laterLoadSeekPausedCheck, recStep, hsolo1, hsolo2, htrans1, htrans2]

theorem sceneBlock_pr_invariant (tl : List Scene) (n i : ℕ) (rp : RunParams) :
    runCheck resumeReadyCheck prStep Option.none (sceneBlock tl n i rp) = true
      ∧ (sceneBlock tl n i rp).foldl prStep Option.none = Option.none := by
  have hsolo1 : ∀ (j m : ℕ) (em : List Bool),
      runCheck resumeReadyCheck prStep Option.none (soloPhase j m em)
        = true := fun j m em =>
    (runCheck_of_inert _ _ _ _ (fun e he => by
      rcases mem_soloPhase he with rfl | rfl <;> exact ⟨rfl, rfl⟩)).1
  have hsolo2 : ∀ (j m : ℕ) (em : List Bool),
      (soloPhase j m em).foldl prStep Option.none = Option.none := fun j m em =>
    (runCheck_of_inert resumeReadyCheck _ _ _ (fun e he => by
      rcases mem_soloPhase he with rfl | rfl <;> exact ⟨rfl, rfl⟩)).2
  have htrans1 : ∀ (j : ℕ) (td : ℚ) (cs : List ℚ),
      runCheck resumeReadyCheck prStep Option.none (transPhase j td cs)
        = true := fun j td cs =>
    (runCheck_of_inert _ _ _ _ (fun e he => by
      rcases mem_transPhase he with ⟨t, _, _, hc⟩
      rcases hc with rfl | rfl | rfl <;> exact ⟨rfl, rfl⟩)).1
  have htrans2 : ∀ (j : ℕ) (td : ℚ) (cs : List ℚ),
      (transPhase j td cs).foldl prStep Option.none = Option.none := fun j td cs =>
    (runCheck_of_inert resumeReadyCheck _ _ _ (fun e he => by
      rcases mem_transPhase he with ⟨t, _, _, hc⟩
      rcases hc with rfl | rfl | rfl <;> exact ⟨rfl, rfl⟩)).2
  unfold sceneBlock
  by_cases hn : i + 1 < n
  · rw [if_pos hn]
    by_cases hp : rp.currentPausedAtResume i
    · rw [if_pos hp]
      by_cases h0 : i = 0
      · rw [if_pos h0]
        constructor <;>
          simp [runCheck_append, List.foldl_append, runCheck,
            resumeReadyCheck, prStep, hsolo1, hsolo2, htrans1, htrans2]
      · rw [if_neg h0]
        constructor <;>
          simp [runCheck_append, List.foldl_append, runCheck,
            resumeReadyCheck, prStep, hsolo1, hsolo2, htrans1, htrans2]
    · rw [if_neg hp]
      by_cases h0 : i = 0
      · rw [if_pos h0]
        constructor <;>
          simp [runCheck_append, List.foldl_append, runCheck,
            resumeReadyCheck, prStep, hsolo1, hsolo2, htrans1, htrans2]
      · rw [if_neg h0]
        constructor <;>
          simp [runCheck_append, List.foldl_append, runCheck,
            resumeReadyCheck, prStep, hsolo1, hsolo2, htrans1, htrans2]
  · rw [if_neg hn]
    by_cases h0 : i = 0
    · rw [if_pos h0]
      constructor <;>
        simp [runCheck_append, List.foldl_append, runCheck,
          resumeReadyCheck, prStep, hsolo1, hsolo2, htrans1, htrans2]
    · rw [if_neg h0]
      constructor <;>
        simp [runCheck_append, List.foldl_append, runCheck,
          resumeReadyCheck, prStep, hsolo1, hsolo2, htrans1, htrans2]

/-- C5 counterexample: on a one-clip timeline the first clip's load happens
right after `recorder.start()` with the sink recording, not paused — the
claim's "the sink is paused for every clip's load and seek, including the
first" fails on this concrete run. -/
theorem sink_not_paused_for_first_load :
    runCheck loadSeekPausedCheck recStep RecState.idle
        (stitchVideos [exScene] Option.none ExportFormat.mp4 (fun _ => true)
          exParamsTrivial).1
      = false := by
  decide

/-- C5 (amended): for every clip after the first, the sink is paused for the
whole of that clip's load and seek and resumes only after the pause window
saw both complete; the first clip's load and seek instead happen after
`recorder.start()`, with the sink already recording. -/
theorem sink_pause_discipline (scenes : List Scene) (bg : Option BackgroundMusic)
    (format : ExportFormat) (sup : String → Bool) (rp : RunParams) :
    runCheck laterLoadSeekPausedCheck recStep RecState.idle
        (stitchVideos scenes bg format sup rp).1 = true
      ∧ runCheck resumeReadyCheck prStep Option.none
          (stitchVideos scenes bg format sup rp).1 = true := by
  unfold stitchVideos
  by_cases hval : (validScenes scenes).length = 0
  · simp [hval, runCheck]
  · rw [if_neg hval]
    simp only []
    have hbodyRec := runCheck_flatMap laterLoadSeekPausedCheck recStep
      RecState.recording (List.range (validScenes scenes).length)
      (fun i => sceneBlock (validScenes scenes) (validScenes scenes).length i rp)
      (fun i => sceneBlock_rec_invariant _ _ i rp)
    have hbodyPr := runCheck_flatMap resumeReadyCheck prStep
      Option.none (List.range (validScenes scenes).length)
      (fun i => sceneBlock (validScenes scenes) (validScenes scenes).length i rp)
      (fun i => sceneBlock_pr_invariant _ _ i rp)
    cases bg with
    | none =>
      constructor <;>
        simp [runCheck_append, List.foldl_append, runCheck,
          laterLoadSeekPausedCheck, resumeReadyCheck, recStep, prStep,
          hbodyRec.1, hbodyRec.2, hbodyPr.1, hbodyPr.2]
    | some b =>
      constructor <;>
        simp [runCheck_append, List.foldl_append, runCheck,
          laterLoadSeekPausedCheck, resumeReadyCheck, recStep, prStep,
          hbodyRec.1, hbodyRec.2, hbodyPr.1, hbodyPr.2]

/-- A scene block never touches the background track. -/
theorem sceneBlock_bg_free {tl : List Scene} {n i : ℕ} {rp : RunParams} :
    ∀ e ∈ sceneBlock tl n i rp,
      isBgPlay e = false ∧ isBgPause e = false ∧ bgGainOf e = Option.none
        ∧ (∀ pl : Bool, bgStep pl e = pl) ∧ bgWindowCheck true e = true := by
  intro e he
  rcases mem_sceneBlock he with
    ⟨j, tgt, rfl⟩ | ⟨j, rfl⟩ | ⟨j, rfl⟩ | ⟨j, rfl⟩ | ⟨j, rfl⟩ | ⟨j, t, rfl⟩
      | ⟨p, rfl⟩ | ⟨s, g, rfl⟩ | rfl | rfl <;>
    exact ⟨rfl, rfl, rfl, fun pl => rfl, rfl⟩

/-- C10 counterexample: with configured volume `1/2` the background track
reaches the mix scaled by `1/4`, not `1/2` — the code writes the configured
volume both to the media element (line 128) and to the gain node (line 132),
two attenuations in series. -/
theorem bg_volume_counterexample :
    bgMixScale (setupBgMusic { url := "m", name := "m", volume := 1/2 })
        ≠ (1/2 : ℚ)
      ∧ bgMixScale (setupBgMusic { url := "m", name := "m", volume := 1/2 })
          = 1/4 := by
  constructor
  · norm_num [bgMixScale, setupBgMusic]
  · norm_num [bgMixScale, setupBgMusic]

/-- C10 (amended): a configured background track of volume `v` is started
exactly once, before any frame of the first clip renders, stopped exactly
once, after every rendered frame; its gain-node value is written exactly once
(at mix-graph setup, to `v`) and never changed during any transition; but the
effective mixed volume is `v * v`, the configured volume applied at both the
media element and the gain node — equal to `v` only for `v ∈ {0, 1}`. -/
theorem bg_music_lifecycle (scenes : List Scene) (b : BackgroundMusic)
    (format : ExportFormat) (sup : String → Bool) (rp : RunParams)
    (h : validScenes scenes ≠ []) :
    ((stitchVideos scenes (some b) format sup rp).1.countP isBgPlay = 1)
      ∧ ((stitchVideos scenes (some b) format sup rp).1.countP isBgPause = 1)
      ∧ runCheck bgWindowCheck bgStep false
          (stitchVideos scenes (some b) format sup rp).1 = true
      ∧ (stitchVideos scenes (some b) format sup rp).1.filterMap bgGainOf
          = [b.volume]
      ∧ bgMixScale (setupBgMusic b) = b.volume * b.volume := by
  have hval : ¬(validScenes scenes).length = 0 := by
    intro hc
    exact h (List.length_eq_zero.mp hc)
  unfold stitchVideos
  rw [if_neg hval]
  simp only []
  have hplay0 : ((List.range (validScenes scenes).length).flatMap
      (fun i => sceneBlock (validScenes scenes) (validScenes scenes).length i rp)).countP
        isBgPlay = 0 := by
    rw [List.countP_eq_zero]
    intro e he
    rw [List.mem_flatMap] at he
    obtain ⟨j, _, hj⟩ := he
    simp [(sceneBlock_bg_free e hj).1]
  have hpause0 : ((List.range (validScenes scenes).length).flatMap
      (fun i => sceneBlock (validScenes scenes) (validScenes scenes).length i rp)).countP
        isBgPause = 0 := by
    rw [List.countP_eq_zero]
    intro e he
    rw [List.mem_flatMap] at he
    obtain ⟨j, _, hj⟩ := he
    simp [(sceneBlock_bg_free e hj).2.1]
  have hgain0 : ((List.range (validScenes scenes).length).flatMap
      (fun i => sceneBlock (validScenes scenes) (validScenes scenes).length i rp)).filterMap
        bgGainOf = [] := by
    rw [List.filterMap_eq_nil]
    intro e he
    rw [List.mem_flatMap] at he
    obtain ⟨j, _, hj⟩ := he
    exact (sceneBlock_bg_free e hj).2.2.1
  have hwindow := runCheck_flatMap bgWindowCheck bgStep true
    (List.range (validScenes scenes).length)
    (fun i => sceneBlock (validScenes scenes) (validScenes scenes).length i rp)
    (fun i => runCheck_of_inert bgWindowCheck bgStep _ true
      (fun e he => ⟨(sceneBlock_bg_free e he).2.2.2.2,
        (sceneBlock_bg_free e he).2.2.2.1 true⟩))
  refine ⟨?_, ?_, ?_, ?_, rfl⟩
  · simp [List.countP_append, List.countP_cons, isBgPlay, hplay0]
  · simp [List.countP_append, List.countP_cons, isBgPause, hpause0]
  · simp [runCheck_append, List.foldl_append, runCheck, bgWindowCheck, bgStep,
      hwindow.1, hwindow.2]
  · simp [List.filterMap_append, List.filterMap_cons, bgGainOf, hgain0]

theorem bg_music_lifecycle_witness :
    validScenes [exScene] ≠ [] ∧
      (((stitchVideos [exScene] (some { url := "m", name := "m", volume := 1/2 })
            ExportFormat.mp4 (fun _ => true) exParamsTrivial).1.countP isBgPlay = 1)
        ∧ ((stitchVideos [exScene] (some { url := "m", name := "m", volume := 1/2 })
            ExportFormat.mp4 (fun _ => true) exParamsTrivial).1.countP isBgPause = 1)
        ∧ runCheck bgWindowCheck bgStep false
            (stitchVideos [exScene] (some { url := "m", name := "m", volume := 1/2 })
              ExportFormat.mp4 (fun _ => true) exParamsTrivial).1 = true
        ∧ (stitchVideos [exScene] (some { url := "m", name := "m", volume := 1/2 })
            ExportFormat.mp4 (fun _ => true) exParamsTrivial).1.filterMap bgGainOf
            = [(1/2 : ℚ)]
        ∧ bgMixScale (setupBgMusic { url := "m", name := "m", volume := 1/2 })
            = (1/2 : ℚ) * (1/2 : ℚ)) :=
  ⟨by decide,
    bg_music_lifecycle [exScene] { url := "m", name := "m", volume := 1/2 }
      ExportFormat.mp4 (fun _ => true) exParamsTrivial (by decide)⟩

/-- Every seek a scene block performs targets the seeked clip's
`trimStart || 0` (lines 227 and 280-281). -/
theorem seek_target_sceneBlock {tl : List Scene} {n i : ℕ} {rp : RunParams}
    {j : ℕ} {tgt : ℚ} (h : Ev.seekClip j tgt ∈ sceneBlock tl n i rp) :
    tgt = soloStart (sceneAt tl j) := by
  unfold sceneBlock at h
  rcases List.mem_append.mp h with h | h
  · rcases List.mem_append.mp h with h | h
    · by_cases h0 : i = 0
      · rw [if_pos h0] at h
        rcases List.mem_cons.mp h with h | h
        · injection h with h1 h2
          rw [h1, h2]
        · simp at h
      · rw [if_neg h0] at h
        simp at h
    · rcases mem_soloPhase h with h | h <;> simp at h
  · by_cases hn : i + 1 < n
    · rw [if_pos hn] at h
      rcases List.mem_append.mp h with h | h
      · rcases List.mem_append.mp h with h | h
        · rcases List.mem_append.mp h with h | h
          · rcases List.mem_append.mp h with h | h
            · simp only [List.mem_cons] at h
              rcases h with h | h | h | h | h
              · simp at h
              · simp at h
              · simp at h
              · injection h with h1 h2
                rw [h1, h2]
              · simp at h
            · by_cases hp : rp.currentPausedAtResume i
              · rw [if_pos hp] at h
                simp at h
              · rw [if_neg hp] at h
                simp at h
          · simp at h
        · rcases mem_transPhase h with ⟨t, _, _, hc⟩
          rcases hc with hc | hc | hc <;> simp at hc
      · simp at h
    · rw [if_neg hn] at h
      simp at h

/-- Every seek any run performs targets that clip's `trimStart`: clip 0 is
seeked before its solo phase (line 227), every later clip during the
preceding handover (lines 280-281). -/
theorem seek_targets_trimStart (scenes : List Scene)
    (bg : Option BackgroundMusic) (format : ExportFormat) (sup : String → Bool)
    (rp : RunParams) (j : ℕ) (tgt : ℚ)
    (h : Ev.seekClip j tgt ∈ (stitchVideos scenes bg format sup rp).1) :
    tgt = soloStart (sceneAt (validScenes scenes) j) := by
  unfold stitchVideos at h
  by_cases hval : (validScenes scenes).length = 0
  · simp [hval] at h
  · rw [if_neg hval] at h
    cases bg with
    | none =>
      simp only [List.mem_append, List.mem_cons, List.not_mem_nil,
        List.mem_flatMap, List.mem_singleton] at h
      simp only [List.mem_range, reduceCtorEq, or_false, false_or] at h
      obtain ⟨i, _, hi⟩ := h
      exact seek_target_sceneBlock hi
    | some b =>
      simp only [List.mem_append, List.mem_cons, List.not_mem_nil,
        List.mem_flatMap, List.mem_singleton] at h
      simp only [List.mem_range, reduceCtorEq, or_false, false_or] at h
      obtain ⟨i, _, hi⟩ := h
      exact seek_target_sceneBlock hi

/-- C1: for every clip in the timeline, its SOLO_PLAY phase plays from
`trimStart` (every seek the engine performs targets the seeked clip's
`trimStart`) up to `soloEnd = max(trimStart, nativeEnd − transitionDuration)`
with `nativeEnd = nativeDuration − trimEnd`; when there is no outgoing
transition (a `none` kind, an absent configuration, or the last clip),
`soloEnd = nativeEnd`.  Stated for non-negative trims that fit inside the
native duration (the data-model invariant; over-trim is left open by the
spec). -/
theorem soloEnd_matches_spec (tl : List Scene) (i : ℕ) (s : Scene) (dur : ℚ)
    (hmem : tl.get? i = some s)
    (h0 : 0 ≤ soloStart s) (h1 : 0 ≤ endTrimOf s)
    (h2 : soloStart s + endTrimOf s ≤ dur) :
    soloEndTime tl i s dur
        = max (soloStart s)
            ((dur - endTrimOf s) - transitionDurationOf (outgoingTransition tl i))
      ∧ (transitionTypeOf (outgoingTransition tl i) = TransitionType.none →
          soloEndTime tl i s dur = dur - endTrimOf s)
      ∧ (∀ (scenes : List Scene) (bg : Option BackgroundMusic)
            (format : ExportFormat) (sup : String → Bool) (rp : RunParams)
            (j : ℕ) (tgt : ℚ),
          Ev.seekClip j tgt ∈ (stitchVideos scenes bg format sup rp).1 →
            tgt = soloStart (sceneAt (validScenes scenes) j)) := by
  obtain ⟨hmax, hnone⟩ := soloEnd_formula tl i s dur hmem h0 h1 h2
  exact ⟨hmax, hnone, seek_targets_trimStart⟩

theorem soloEnd_matches_spec_witness :
    [exScene].get? 0 = some exScene ∧ 0 ≤ soloStart exScene ∧
      0 ≤ endTrimOf exScene ∧ soloStart exScene + endTrimOf exScene ≤ 10 ∧
      (soloEndTime [exScene] 0 exScene 10
          = max (soloStart exScene)
              ((10 - endTrimOf exScene)
                - transitionDurationOf (outgoingTransition [exScene] 0))
        ∧ (transitionTypeOf (outgoingTransition [exScene] 0) = TransitionType.none →
            soloEndTime [exScene] 0 exScene 10 = 10 - endTrimOf exScene)
        ∧ (∀ (scenes : List Scene) (bg : Option BackgroundMusic)
              (format : ExportFormat) (sup : String → Bool) (rp : RunParams)
              (j : ℕ) (tgt : ℚ),
            Ev.seekClip j tgt ∈ (stitchVideos scenes bg format sup rp).1 →
              tgt = soloStart (sceneAt (validScenes scenes) j))) :=
  ⟨rfl, by norm_num [soloStart, exScene], by norm_num [endTrimOf, exScene],
    by norm_num [soloStart, endTrimOf, exScene],
    soloEnd_matches_spec [exScene] 0 exScene 10 rfl
      (by norm_num [soloStart, exScene]) (by norm_num [endTrimOf, exScene])
      (by norm_num [soloStart, endTrimOf, exScene])⟩

theorem filterMap_flatMap {α β γ : Type _} (l : List α) (g : α → List β)
    (f : β → Option γ) :
    (l.flatMap g).filterMap f = l.flatMap (fun a => (g a).filterMap f) := by
  induction l with
  | nil => rfl
  | cons a l ih => simp [List.flatMap_cons, List.filterMap_append, ih]

theorem progress_soloPhase (i n : ℕ) (em : List Bool) :
    progressValues (soloPhase i n em)
      = List.replicate (em.count true) ((i : ℚ) / (n : ℚ) * 100) := by
  induction em with
  | nil => rfl
  | cons b em ih =>
    have hsplit : soloPhase i n (b :: em)
        = (Ev.soloFrame i
            :: (if b then [Ev.progress ((i : ℚ) / (n : ℚ) * 100)] else []))
          ++ soloPhase i n em := by
      simp [soloPhase, List.flatMap_cons]
    rw [progressValues] at ih ⊢
    rw [hsplit, List.filterMap_append, List.filterMap_cons]
    cases b with
    | true =>
      simp [progressOf, List.count_cons, List.replicate_succ, ih]
    | false =>
      simp [progressOf, List.count_cons, ih]

theorem progress_transPhase (i : ℕ) (td : ℚ) (cs : List ℚ) :
    progressValues (transPhase i td cs) = [] := by
  rw [progressValues, List.filterMap_eq_nil]
  intro e he
  rcases mem_transPhase he with ⟨t, _, _, hc⟩
  rcases hc with rfl | rfl | rfl <;> rfl

theorem progress_sceneBlock (tl : List Scene) (n i : ℕ) (rp : RunParams) :
    progressValues (sceneBlock tl n i rp) = blockProgress n i rp := by
  have hsolo := progress_soloPhase i n (rp.soloEmits i)
  have htrans := progress_transPhase i
    (transitionDurationOf (outgoingTransition tl i)) (rp.transSamples i)
  rw [progressValues] at hsolo htrans
  unfold sceneBlock blockProgress
  by_cases hn : i + 1 < n
  · rw [if_pos hn, if_pos hn]
    by_cases hp : rp.currentPausedAtResume i
    · rw [if_pos hp]
      by_cases h0 : i = 0
      · rw [if_pos h0]
        simp [progressValues, List.filterMap_append, List.filterMap_cons,
          progressOf, hsolo, htrans]
      · rw [if_neg h0]
        simp [progressValues, List.filterMap_append, List.filterMap_cons,
          progressOf, hsolo, htrans]
    · rw [if_neg hp]
      by_cases h0 : i = 0
      · rw [if_pos h0]
        simp [progressValues, List.filterMap_append, List.filterMap_cons,
          progressOf, hsolo, htrans]
      · rw [if_neg h0]
        simp [progressValues, List.filterMap_append, List.filterMap_cons,
          progressOf, hsolo, htrans]
  · rw [if_neg hn, if_neg hn]
    by_cases h0 : i = 0
    · rw [if_pos h0]
      simp [progressValues, List.filterMap_append, List.filterMap_cons,
        progressOf, hsolo, htrans]
    · rw [if_neg h0]
      simp [progressValues, List.filterMap_append, List.filterMap_cons,
        progressOf, hsolo, htrans]

theorem frac_mul_mono {a b n : ℚ} (hn : 0 < n) (hab : a ≤ b) :
    a / n * 100 ≤ b / n * 100 :=
  mul_le_mul_of_nonneg_right ((div_le_div_right hn).mpr hab) (by norm_num)

theorem blockProgress_bounds {n i : ℕ} {rp : RunParams} (hn : 0 < n) :
    ∀ x ∈ blockProgress n i rp,
      (i : ℚ) / (n : ℚ) * 100 ≤ x ∧ x ≤ ((i : ℚ) + 1) / (n : ℚ) * 100 := by
  intro x hx
  have hnq : (0 : ℚ) < (n : ℚ) := by exact_mod_cast hn
  unfold blockProgress at hx
  rcases List.mem_append.mp hx with hx | hx
  · rw [List.mem_replicate] at hx
    rw [hx.2]
    exact ⟨le_refl _, frac_mul_mono hnq (by linarith)⟩
  · by_cases hn2 : i + 1 < n
    · rw [if_pos hn2, List.mem_singleton] at hx
      rw [hx]
      constructor
      · exact frac_mul_mono hnq (by linarith)
      · exact frac_mul_mono hnq (by linarith)
    · rw [if_neg hn2] at hx
      exact absurd hx (List.not_mem_nil x)

theorem blockProgress_pairwise (n i : ℕ) (rp : RunParams) (hn : 0 < n) :
    List.Pairwise (· ≤ ·) (blockProgress n i rp) := by
  have hnq : (0 : ℚ) < (n : ℚ) := by exact_mod_cast hn
  unfold blockProgress
  rw [List.pairwise_append]
  refine ⟨List.pairwise_replicate.mpr (Or.inr (le_refl _)), ?_, ?_⟩
  · by_cases hn2 : i + 1 < n
    · rw [if_pos hn2]
      exact List.pairwise_singleton _ _
    · rw [if_neg hn2]
      exact List.Pairwise.nil
  · intro a ha b hb
    rw [List.mem_replicate] at ha
    by_cases hn2 : i + 1 < n
    · rw [if_pos hn2, List.mem_singleton] at hb
      rw [ha.2, hb]
      exact frac_mul_mono hnq (by linarith)
    · rw [if_neg hn2] at hb
      exact absurd hb (List.not_mem_nil b)

theorem body_progress_sorted (n : ℕ) (rp : RunParams) (hn : 0 < n) :
    ∀ m, m ≤ n →
      List.Pairwise (· ≤ ·)
          ((List.range m).flatMap (fun i => blockProgress n i rp))
        ∧ ∀ x ∈ (List.range m).flatMap (fun i => blockProgress n i rp),
            0 ≤ x ∧ x ≤ (m : ℚ) / (n : ℚ) * 100 := by
  have hnq : (0 : ℚ) < (n : ℚ) := by exact_mod_cast hn
  intro m
  induction m with
  | zero => simp
  | succ m ih =>
    intro hm
    obtain ⟨ihp, ihb⟩ := ih (Nat.le_of_succ_le hm)
    have hcast : ((m : ℚ) + 1) = ((m + 1 : ℕ) : ℚ) := by push_cast; ring
    have hblockLo : ∀ x ∈ blockProgress n m rp, (m : ℚ) / (n : ℚ) * 100 ≤ x :=
      fun x hx => (blockProgress_bounds hn x hx).1
    have hblockHi : ∀ x ∈ blockProgress n m rp,
        x ≤ ((m : ℚ) + 1) / (n : ℚ) * 100 :=
      fun x hx => (blockProgress_bounds hn x hx).2
    rw [List.range_succ, List.flatMap_append, List.flatMap_cons,
      List.flatMap_nil, List.append_nil]
    constructor
    · rw [List.pairwise_append]
      refine ⟨ihp, blockProgress_pairwise n m rp hn, ?_⟩
      intro a ha b hb
      exact le_trans (ihb a ha).2 (hblockLo b hb)
    · intro x hx
      rcases List.mem_append.mp hx with hx | hx
      · refine ⟨(ihb x hx).1, ?_⟩
        refine le_trans (ihb x hx).2 ?_
        rw [← hcast]
        exact frac_mul_mono hnq (by linarith)
      · constructor
        · refine le_trans ?_ (hblockLo x hx)
          have : (0 : ℚ) ≤ (m : ℚ) := by positivity
          exact mul_nonneg (div_nonneg this hnq.le) (by norm_num)
        · rw [← hcast]
          exact hblockHi x hx

/-- C3: over one successful stitch the reported percent values form a
monotonically non-decreasing sequence, and the last reported value is
exactly 100 (reported at line 386, after the last clip). -/
theorem progress_monotone_and_final (scenes : List Scene)
    (bg : Option BackgroundMusic) (format : ExportFormat) (sup : String → Bool)
    (rp : RunParams) (h : validScenes scenes ≠ []) :
    List.Chain' (· ≤ ·)
        (progressValues (stitchVideos scenes bg format sup rp).1)
      ∧ (progressValues (stitchVideos scenes bg format sup rp).1).getLast?
          = some 100 := by
  have hval : ¬(validScenes scenes).length = 0 := by
    intro hc
    exact h (List.length_eq_zero.mp hc)
  have hn : 0 < (validScenes scenes).length := Nat.pos_of_ne_zero hval
  have hnq : (0 : ℚ) < ((validScenes scenes).length : ℚ) := by exact_mod_cast hn
  have hbody : ((List.range (validScenes scenes).length).flatMap
        (fun i => sceneBlock (validScenes scenes) (validScenes scenes).length i rp)).filterMap
          progressOf
      = (List.range (validScenes scenes).length).flatMap
          (fun i => blockProgress (validScenes scenes).length i rp) := by
    rw [filterMap_flatMap]
    have hps : ∀ i, (sceneBlock (validScenes scenes) (validScenes scenes).length
        i rp).filterMap progressOf
        = blockProgress (validScenes scenes).length i rp :=
      fun i => progress_sceneBlock (validScenes scenes)
        (validScenes scenes).length i rp
    simp only [hps]
  have hall : progressValues (stitchVideos scenes bg format sup rp).1
      = 0 :: (((List.range (validScenes scenes).length).flatMap
          (fun i => blockProgress (validScenes scenes).length i rp)) ++ [100]) := by
    unfold stitchVideos
    rw [if_neg hval]
    cases bg with
    | none =>
      rw [progressValues]
      simp [progressOf, List.filterMap_cons, List.filterMap_append, hbody]
    | some b =>
      rw [progressValues]
      simp [progressOf, List.filterMap_cons, List.filterMap_append, hbody]
  obtain ⟨hbp, hbb⟩ := body_progress_sorted (validScenes scenes).length rp hn
    (validScenes scenes).length le_rfl
  have h100 : ∀ x ∈ (List.range (validScenes scenes).length).flatMap
      (fun i => blockProgress (validScenes scenes).length i rp), x ≤ 100 := by
    intro x hx
    have hle := (hbb x hx).2
    rw [div_self (ne_of_gt hnq), one_mul] at hle
    exact hle
  have hpw : List.Pairwise (· ≤ ·)
      ((0 : ℚ) :: (((List.range (validScenes scenes).length).flatMap
        (fun i => blockProgress (validScenes scenes).length i rp)) ++ [100])) := by
    rw [List.pairwise_cons]
    constructor
    · intro y hy
      rcases List.mem_append.mp hy with hy | hy
      · exact (hbb y hy).1
      · rw [List.mem_singleton] at hy
        rw [hy]
        norm_num
    · rw [List.pairwise_append]
      refine ⟨hbp, List.pairwise_singleton _ _, ?_⟩
      intro a ha b hb
      rw [List.mem_singleton] at hb
      rw [hb]
      exact h100 a ha
  constructor
  · rw [hall]
    exact hpw.chain'
  · rw [hall, ← List.cons_append]
    exact List.getLast?_concat _

theorem progress_monotone_and_final_witness :
    validScenes [exScene] ≠ [] ∧
      (List.Chain' (· ≤ ·)
          (progressValues (stitchVideos [exScene] Option.none ExportFormat.mp4
            (fun _ => true) exParamsTrivial).1)
        ∧ (progressValues (stitchVideos [exScene] Option.none ExportFormat.mp4
            (fun _ => true) exParamsTrivial).1).getLast? = some 100) :=
  ⟨by decide,
    progress_monotone_and_final [exScene] Option.none ExportFormat.mp4
      (fun _ => true) exParamsTrivial (by decide)⟩

end VeoStitch
